import Mathlib

/-!
Verification of the skyline switch platform abstraction layer (PAL):
a shallow embedding of the clock arithmetic, the status-conversion layer,
the resolver-error classifier and the connect-with-deadline algorithm of
`library/std/src/sys`, with theorems settling the specification claims.

Machine integers are modelled as `Nat`/`Int` with explicit bounds; Rust
`Option`/`Result` become `Option` and small result inductives; a Rust
panic is modelled as `Option.none` on the function's result.
-/

namespace PAL

/-- Nanoseconds per second, as in the source (`NSEC_PER_SEC`). -/
def NSEC_PER_SEC : Nat := 1000000000

/-- One past the largest `u64` value; `u64` checked arithmetic tests against it. -/
def U64_MOD : Nat := 18446744073709551616

/-- `core::time::Duration`: a seconds/nanoseconds pair (`secs : u64`,
`nanos : u32` with `nanos < NSEC_PER_SEC`). -/
structure Duration where
  secs : Nat
  nanos : Nat
deriving DecidableEq, Repr

/-- Well-formedness of a `Duration` value: the `u64` bound on `secs` and the
nanosecond-range invariant on `nanos`. -/
def Duration.WF (d : Duration) : Prop := d.secs < U64_MOD ∧ d.nanos < NSEC_PER_SEC

/-- Total nanosecond count of a duration, the abstraction used to state
arithmetic facts. -/
def Duration.toNanos (d : Duration) : Nat := d.secs * NSEC_PER_SEC + d.nanos

/-- `Duration::checked_add`: checked seconds addition, nanosecond carry,
checked carry into seconds; `none` models the `None` overflow result. -/
def Duration.checked_add (a b : Duration) : Option Duration :=
  if a.secs + b.secs < U64_MOD then
    let secs := a.secs + b.secs
    let nanos := a.nanos + b.nanos
    if NSEC_PER_SEC ≤ nanos then
      if secs + 1 < U64_MOD then some ⟨secs + 1, nanos - NSEC_PER_SEC⟩ else none
    else
      some ⟨secs, nanos⟩
  else none

/-- `Duration::checked_sub`: checked seconds subtraction with a nanosecond
borrow; `none` models the `None` underflow result. -/
def Duration.checked_sub (a b : Duration) : Option Duration :=
  if b.secs ≤ a.secs then
    if b.nanos ≤ a.nanos then
      some ⟨a.secs - b.secs, a.nanos - b.nanos⟩
    else if 1 ≤ a.secs - b.secs then
      some ⟨a.secs - b.secs - 1, a.nanos + NSEC_PER_SEC - b.nanos⟩
    else none
  else none

/-- The derived `PartialOrd`/`Ord` on `Duration`: lexicographic on
(`secs`, `nanos`), as a boolean `a ≤ b` test. -/
def Duration.leb (a b : Duration) : Bool :=
  decide (a.secs < b.secs ∨ (a.secs = b.secs ∧ a.nanos ≤ b.nanos))

/-- The `Sub` impl on `Duration` (`checked_sub(...).expect(...)`); the default
value stands for the panic, which is unreachable at every call site modelled
here. -/
def Duration.subUnwrap (a b : Duration) : Duration :=
  (a.checked_sub b).getD ⟨0, 0⟩

/-- `Instant` of `sys/time/switch.rs`: wraps a `Duration` since an arbitrary
tick origin. -/
structure Instant where
  dur : Duration
deriving DecidableEq, Repr

/-- `Instant::checked_add_duration`. -/
def Instant.checked_add_duration (x : Instant) (d : Duration) : Option Instant :=
  (x.dur.checked_add d).map Instant.mk

/-- `Instant.checked_sub_duration`. -/
def Instant.checked_sub_duration (x : Instant) (d : Duration) : Option Instant :=
  (x.dur.checked_sub d).map Instant.mk

/-- `SystemTime` of `sys/time/switch.rs`: wraps a `Duration` since the epoch. -/
structure SystemTime where
  dur : Duration
deriving DecidableEq, Repr

/-- Result of `SystemTime::sub_time` (`Result of Duration, Duration`). -/
inductive SubTimeRes where
  | ok (d : Duration)
  | error (d : Duration)
deriving DecidableEq, Repr

/-- `SystemTime::sub_time`: `self.0.checked_sub(other.0).ok_or_else(other.0 - self.0)`. -/
def SystemTime.sub_time (a b : SystemTime) : SubTimeRes :=
  match a.dur.checked_sub b.dur with
  | some d => .ok d
  | none => .error (b.dur.subUnwrap a.dur)

/-! Arithmetic lemmas about the duration model. -/

theorem Duration.checked_sub_of_leb (a b : Duration) (ha : a.WF) (hb : b.WF)
    (h : Duration.leb b a = true) :
    ∃ c, a.checked_sub b = some c ∧ c.toNanos = a.toNanos - b.toNanos := by
  simp only [Duration.leb, decide_eq_true_eq] at h
  obtain ⟨_, ha2⟩ := ha
  obtain ⟨_, hb2⟩ := hb
  simp only [Duration.checked_sub]
  rcases h with hlt | ⟨heq, hle⟩
  · have hsecs : b.secs ≤ a.secs := Nat.le_of_lt hlt
    by_cases hn : b.nanos ≤ a.nanos
    · refine ⟨⟨a.secs - b.secs, a.nanos - b.nanos⟩, ?_, ?_⟩
      · simp [hsecs, hn]
      · simp only [Duration.toNanos, NSEC_PER_SEC] at *
        omega
    · refine ⟨⟨a.secs - b.secs - 1, a.nanos + NSEC_PER_SEC - b.nanos⟩, ?_, ?_⟩
      · have h1 : 1 ≤ a.secs - b.secs := by omega
        simp [hsecs, hn, h1]
      · simp only [Duration.toNanos, NSEC_PER_SEC] at *
        omega
  · have hsecs : b.secs ≤ a.secs := Nat.le_of_eq heq
    refine ⟨⟨a.secs - b.secs, a.nanos - b.nanos⟩, ?_, ?_⟩
    · simp [hsecs, hle]
    · simp only [Duration.toNanos, NSEC_PER_SEC] at *
      omega

theorem Duration.checked_sub_of_not_leb (a b : Duration)
    (h : Duration.leb b a = false) : a.checked_sub b = none := by
  simp only [Duration.leb, decide_eq_false_iff_not, not_or, not_and, Nat.not_lt,
    Nat.not_le] at h
  obtain ⟨h1, h2⟩ := h
  simp only [Duration.checked_sub]
  by_cases hs : b.secs ≤ a.secs
  · have heq : b.secs = a.secs := Nat.le_antisymm hs h1
    have hn : ¬ b.nanos ≤ a.nanos := by
      intro hc
      exact absurd hc (Nat.not_le_of_lt (h2 heq))
    have hz : ¬ 1 ≤ a.secs - b.secs := by omega
    simp [hs, hn, hz]
  · simp [hs]

theorem Duration.leb_total (a b : Duration) (h : Duration.leb b a = false) :
    Duration.leb a b = true := by
  simp only [Duration.leb, decide_eq_false_iff_not, not_or, not_and, Nat.not_lt,
    Nat.not_le] at h
  simp only [Duration.leb, decide_eq_true_eq]
  omega

theorem Duration.add_sub_cancel (a b c : Duration) (ha : a.nanos < NSEC_PER_SEC)
    (h : a.checked_add b = some c) : c.checked_sub b = some a := by
  simp only [Duration.checked_add] at h
  by_cases hs : a.secs + b.secs < U64_MOD
  · simp only [hs, if_true] at h
    by_cases hn : NSEC_PER_SEC ≤ a.nanos + b.nanos
    · simp only [hn, if_true] at h
      by_cases hc : a.secs + b.secs + 1 < U64_MOD
      · simp only [hc, if_true, Option.some.injEq] at h
        subst h
        simp only [Duration.checked_sub]
        have h1 : b.secs ≤ a.secs + b.secs + 1 := by omega
        have h2 : ¬ b.nanos ≤ a.nanos + b.nanos - NSEC_PER_SEC := by
          simp only [NSEC_PER_SEC] at *
          omega
        have h3 : 1 ≤ a.secs + b.secs + 1 - b.secs := by omega
        simp only [h1, if_true, h2, if_false, h3, if_true, Option.some.injEq]
        have e1 : a.secs + b.secs + 1 - b.secs - 1 = a.secs := by omega
        have e2 : a.nanos + b.nanos - NSEC_PER_SEC + NSEC_PER_SEC - b.nanos = a.nanos := by
          omega
        rw [e1, e2]
      · simp [hc] at h
    · simp only [hn, if_false, Option.some.injEq] at h
      subst h
      simp only [Duration.checked_sub]
      have h1 : b.secs ≤ a.secs + b.secs := by omega
      have h2 : b.nanos ≤ a.nanos + b.nanos := by omega
      simp only [h1, if_true, h2, if_true, Option.some.injEq]
      have e1 : a.secs + b.secs - b.secs = a.secs := by omega
      have e2 : a.nanos + b.nanos - b.nanos = a.nanos := by omega
      rw [e1, e2]
  · simp [hs] at h

/-- Claim C7: for every instant `x` and duration `d` such that
`checked_add_duration x d` does not overflow, `checked_sub_duration` applied
to the result and `d` succeeds and gives back `x`. -/
theorem checked_add_then_sub_roundtrip (x : Instant) (d : Duration) (y : Instant)
    (hx : x.dur.WF) (h : Instant.checked_add_duration x d = some y) :
    Instant.checked_sub_duration y d = some x := by
  simp only [Instant.checked_add_duration, Option.map_eq_some'] at h
  obtain ⟨c, hc, hy⟩ := h
  simp only [Instant.checked_sub_duration]
  have := Duration.add_sub_cancel x.dur d c hx.2 hc
  subst hy
  simp only [this, Option.map_some']

/-- Witness for C7 at a concrete instant and duration. -/
theorem checked_add_then_sub_roundtrip_witness :
    Instant.checked_sub_duration ⟨⟨5, 400000000⟩⟩ ⟨2, 800000000⟩ = some ⟨⟨2, 600000000⟩⟩ :=
  checked_add_then_sub_roundtrip ⟨⟨2, 600000000⟩⟩ ⟨2, 800000000⟩ ⟨⟨5, 400000000⟩⟩
    (by constructor <;> decide) (by decide)

/-- Claim C6: `sub_time a b` succeeds with the duration `a - b` exactly when
`a ≥ b` (the derived lexicographic order), and otherwise fails carrying the
duration `b - a` as payload. -/
theorem sub_time_spec (a b : SystemTime) (ha : a.dur.WF) (hb : b.dur.WF) :
    (Duration.leb b.dur a.dur = true →
      ∃ d, a.sub_time b = .ok d ∧ d.toNanos = a.dur.toNanos - b.dur.toNanos) ∧
    (Duration.leb b.dur a.dur = false →
      ∃ d, a.sub_time b = .error d ∧ d.toNanos = b.dur.toNanos - a.dur.toNanos) := by
  constructor
  · intro h
    obtain ⟨c, hc, hn⟩ := Duration.checked_sub_of_leb a.dur b.dur ha hb h
    exact ⟨c, by simp [SystemTime.sub_time, hc], hn⟩
  · intro h
    have hnone := Duration.checked_sub_of_not_leb a.dur b.dur h
    have hba := Duration.leb_total a.dur b.dur h
    obtain ⟨c, hc, hn⟩ := Duration.checked_sub_of_leb b.dur a.dur hb ha hba
    refine ⟨c, ?_, hn⟩
    simp [SystemTime.sub_time, hnone, Duration.subUnwrap, hc]

/-- Witness for C6 at concrete system times, exercising both the success and
the failure branch. -/
theorem sub_time_spec_witness :
    ((Duration.leb ⟨1, 900000000⟩ ⟨3, 100000000⟩ = true →
      ∃ d, SystemTime.sub_time ⟨⟨3, 100000000⟩⟩ ⟨⟨1, 900000000⟩⟩ = .ok d ∧
        d.toNanos = Duration.toNanos ⟨3, 100000000⟩ - Duration.toNanos ⟨1, 900000000⟩) ∧
    (Duration.leb ⟨1, 900000000⟩ ⟨3, 100000000⟩ = false →
      ∃ d, SystemTime.sub_time ⟨⟨3, 100000000⟩⟩ ⟨⟨1, 900000000⟩⟩ = .error d ∧
        d.toNanos = Duration.toNanos ⟨1, 900000000⟩ - Duration.toNanos ⟨3, 100000000⟩)) :=
  sub_time_spec ⟨⟨3, 100000000⟩⟩ ⟨⟨1, 900000000⟩⟩ (by constructor <;> decide)
    (by constructor <;> decide)

/-! Status layer: `sys/pal/switch/mod.rs` and `sys/io/error/switch.rs`. -/

/-- The error kinds this core can produce (`io::ErrorKind` restricted to the
variants the PAL mentions). -/
inductive ErrorKind where
  | interrupted
  | uncategorized
  | invalidInput
  | timedOut
  | networkDown
  | other
deriving DecidableEq, Repr

/-- `decode_error_kind` of `sys/io/error/switch.rs`: every raw code is
classified as uncategorized on this platform. -/
def decode_error_kind (_code : Int) : ErrorKind := .uncategorized

/-- `is_interrupted` of `sys/io/error/switch.rs`: constantly false. -/
def is_interrupted (_code : Int) : Bool := false

/-- Two's-complement wrapping negation at bit width `w` (release-mode `-`
on a signed integer), for inputs in the signed range of width `w`. -/
def wrapNeg (w : Nat) (v : Int) : Int :=
  let r := (-v) % ((2 : Int) ^ w)
  if r < (2 : Int) ^ (w - 1) then r else r - (2 : Int) ^ w

/-- Outcome of `cvt`: the `io::Result` with the raw OS error code on the
error side. -/
inductive CvtRes where
  | ok (v : Int)
  | error (e : Int)
deriving DecidableEq, Repr

/-- `IsNegative::negate` for `i64` (and `isize`):
`i32::try_from(-(*self)).unwrap()`; `none` models the panic of `unwrap`
when the negated value does not fit in `i32`. -/
def negate_i64 (v : Int) : Option Int :=
  let n := wrapNeg 64 v
  if -2147483648 ≤ n ∧ n ≤ 2147483647 then some n else none

/-- `IsNegative::negate` for `i32`: plain in-width negation (wrapping at the
minimum value). -/
def negate_i32 (v : Int) : Int := wrapNeg 32 v

/-- `cvt` instantiated at `i64`: negative values become raw OS errors via
`negate_i64`; `none` models a panic inside `negate`. -/
def cvt_i64 (v : Int) : Option CvtRes :=
  if v < 0 then (negate_i64 v).map .error else some (.ok v)

/-- `cvt` instantiated at `i32`: negative values become raw OS errors via
the total (wrapping) `i32` negation. -/
def cvt_i32 (v : Int) : CvtRes :=
  if v < 0 then .error (negate_i32 v) else .ok v

/-- `cvt_r` applied to a function whose successive return values are the given
list: loop, discarding outcomes whose error is classified interrupted.
Returns the number of calls consumed together with the final outcome;
`none` models a loop that never finds a non-interrupted outcome. -/
def cvt_r : List Int → Option (Nat × CvtRes)
  | [] => none
  | r :: rest =>
    match cvt_i32 r with
    | .error e =>
      if decode_error_kind e = .interrupted then
        (cvt_r rest).map (fun p => (p.1 + 1, p.2))
      else some (1, .error e)
    | .ok v => some (1, .ok v)

/-- Counterexample to claim C2: a function reporting EINTR (raw code 4, i.e.
return value `-4`) three times and then succeeding with `5` is not retried:
`cvt_r` consumes one call and returns the EINTR error, not the success, because
`decode_error_kind` never classifies any code as interrupted. -/
theorem cvt_r_eintr_counterexample :
    cvt_r [-4, -4, -4, 5] = some (1, .error 4) ∧
      cvt_r [-4, -4, -4, 5] ≠ some (4, .ok 5) := by
  constructor <;> decide

/-- Claim C2 as amended: `cvt_r` returns the first outcome whose error is not
classified interrupted; since `decode_error_kind` classifies every code as
uncategorized on this platform, no outcome is ever discarded and `cvt_r`
invokes its function exactly once, returning that first outcome. -/
theorem cvt_r_first_outcome (r : Int) (rest : List Int) :
    cvt_r (r :: rest) = some (1, cvt_i32 r) := by
  simp only [cvt_r]
  cases h : cvt_i32 r with
  | ok v => rfl
  | error e => simp [decode_error_kind]

/-- Counterexample to claim C10: `cvt` at width `i64` on the input
`-2147483649` (magnitude one above `i32::MAX`) panics: `i32::try_from` of the
negated value fails and `unwrap` aborts, modelled as `none`. -/
theorem cvt_i64_panic_counterexample : cvt_i64 (-2147483649) = none := by
  decide

/-- Claim C10 as amended: for negative inputs whose negated value is
representable in `i32`, `cvt` (at widths `i64` and `i32` alike) returns a
raw-OS-error failure built from the negated value; inputs of magnitude above
`i32::MAX` instead panic in `negate` (see the counterexample), so the
conversion is not total. -/
theorem cvt_negate_in_range (v : Int) (h1 : -2147483647 ≤ v) (h2 : v < 0) :
    cvt_i64 v = some (.error (-v)) ∧ cvt_i32 v = .error (-v) := by
  have hmod : (-v) % ((2 : Int) ^ 64) = -v :=
    Int.emod_eq_of_lt (by omega) (by norm_num1; omega)
  have hmod32 : (-v) % ((2 : Int) ^ 32) = -v :=
    Int.emod_eq_of_lt (by omega) (by norm_num1; omega)
  constructor
  · simp only [cvt_i64, h2, if_true, negate_i64, wrapNeg, hmod]
    have hlt : -v < (2 : Int) ^ (64 - 1) := by norm_num1; omega
    simp only [hlt, if_true]
    have : -2147483648 ≤ -v ∧ -v ≤ 2147483647 := by omega
    simp [this]
  · simp only [cvt_i32, h2, if_true, negate_i32, wrapNeg, hmod32]
    have hlt : -v < (2 : Int) ^ (32 - 1) := by norm_num1; omega
    simp only [hlt, if_true]

/-- Witness for the amended C10 at the concrete input `-5`. -/
theorem cvt_negate_in_range_witness :
    cvt_i64 (-5) = some (.error 5) ∧ cvt_i32 (-5) = .error 5 :=
  cvt_negate_in_range (-5) (by decide) (by decide)

/-! Connection establisher: `Socket::connect_timeout` of
`sys/net/connection/socket/switch.rs`, modelled over an explicit trace of
OS-call outcomes supplied by the environment. -/

/-- `c_int::MAX`, the platform's maximum representable poll wait. -/
def C_INT_MAX : Nat := 2147483647

/-- `u64::saturating_mul`. -/
def satMul64 (a b : Nat) : Nat := min (a * b) (U64_MOD - 1)

/-- `u64::saturating_add`. -/
def satAdd64 (a b : Nat) : Nat := min (a + b) (U64_MOD - 1)

/-- The millisecond wait value computed from the remaining duration in each
iteration of the poll loop: saturating `secs * 1000 + nanos / 1_000_000`,
nudged to `1` when zero, then clamped to `c_int::MAX`. -/
def pollMs (rem : Duration) : Nat :=
  let ms := satAdd64 (satMul64 rem.secs 1000) (rem.nanos / 1000000)
  let ms := if ms = 0 then 1 else ms
  min ms C_INT_MAX

/-- OS calls issued by `connect_timeout`, at the granularity the claims
mention: the nonblocking toggles, the connect itself, and each poll with its
wait bound. -/
inductive OsCall where
  | setNonblocking (b : Bool)
  | connect
  | poll (ms : Nat)
deriving DecidableEq, Repr

/-- Outcome of the initial nonblocking `connect`, as the code branches on it:
immediate success, `EINPROGRESS`, or any other raw error. -/
inductive ConnectRes where
  | ok
  | inProgress
  | errOther (e : Int)
deriving DecidableEq, Repr

/-- Outcome of one `poll` call: `-1` with a raw `errno`, `0` (wait expired),
or a positive readiness count. -/
inductive PollRes where
  | err (e : Int)
  | expired
  | ready
deriving DecidableEq, Repr

/-- The environment of one poll-loop iteration: the value `start.elapsed()`
reads at the top of the loop, and the outcome of the `poll` call. -/
structure IterEnv where
  elapsed : Duration
  poll : PollRes
deriving DecidableEq, Repr

/-- Result of `connect_timeout`. -/
inductive ConnResult where
  | ok
  | osError (e : Int)
  | invalidInput
  | timedOut
  | pollError (e : Int)
  | outOfEnv
deriving DecidableEq, Repr

/-- The poll loop of `connect_timeout`: deadline check, millisecond
conversion, poll; a poll error whose kind is not interrupted is surfaced,
interrupted and expired polls re-enter the loop, readiness is success.
Returns the loop's result together with the poll calls it issued;
`.outOfEnv` models running past the supplied trace. -/
def pollLoop (timeout : Duration) : List IterEnv → ConnResult × List OsCall
  | [] => (.outOfEnv, [])
  | it :: rest =>
    if Duration.leb timeout it.elapsed then (.timedOut, [])
    else
      let ms := pollMs (timeout.subUnwrap it.elapsed)
      match it.poll with
      | .err e =>
        if decode_error_kind e = .interrupted then
          ((pollLoop timeout rest).1, .poll ms :: (pollLoop timeout rest).2)
        else (.pollError e, [.poll ms])
      | .expired => ((pollLoop timeout rest).1, .poll ms :: (pollLoop timeout rest).2)
      | .ready => (.ok, [.poll ms])

/-- The observable outcome of one `connect_timeout` call: its result, the
nonblocking flag after the call (the fcntl toggles themselves assumed to
succeed), and the OS calls issued. -/
structure CTResult where
  result : ConnResult
  nonblocking : Bool
  calls : List OsCall
deriving DecidableEq, Repr

/-- `Socket::connect_timeout`, parameterised by the nonblocking flag before
the call, the outcome of the initial connect, the timeout, and the poll-loop
environment. The code first toggles nonblocking on, connects, toggles it back
off; only then does it branch on the connect outcome and, in the in-progress
case, reject a zero timeout before entering the poll loop. -/
def connect_timeout (_prevNonblocking : Bool) (cr : ConnectRes) (timeout : Duration)
    (iters : List IterEnv) : CTResult :=
  let pre : List OsCall := [.setNonblocking true, .connect, .setNonblocking false]
  match cr with
  | .ok => ⟨.ok, false, pre⟩
  | .errOther e => ⟨.osError e, false, pre⟩
  | .inProgress =>
    if timeout.secs = 0 ∧ timeout.nanos = 0 then ⟨.invalidInput, false, pre⟩
    else ⟨(pollLoop timeout iters).1, false, pre ++ (pollLoop timeout iters).2⟩

/-- Counterexample to claim C1: with a zero timeout, when the initial
nonblocking connect completes immediately, `connect_timeout` returns success
rather than an invalid-input failure; and even on the rejection path the
nonblocking toggles and the connect have already been issued, so the rejection
is not free of OS calls. -/
theorem connect_timeout_zero_counterexample :
    (connect_timeout false .ok ⟨0, 0⟩ []).result = .ok ∧
      (connect_timeout false .ok ⟨0, 0⟩ []).result ≠ .invalidInput ∧
      (connect_timeout false .inProgress ⟨0, 0⟩ []).result = .invalidInput ∧
      (connect_timeout false .inProgress ⟨0, 0⟩ []).calls ≠ [] := by
  refine ⟨rfl, by decide, rfl, by decide⟩

/-- Claim C1 as amended: the zero-timeout check happens only on the
in-progress path, after the nonblocking toggles and the connect have been
issued; there a zero timeout is rejected with invalid-input before any poll
call, while an immediately completed connect returns success even with a zero
timeout. -/
theorem connect_timeout_zero_amended (prev : Bool) (iters : List IterEnv) :
    connect_timeout prev .inProgress ⟨0, 0⟩ iters =
        ⟨.invalidInput, false, [.setNonblocking true, .connect, .setNonblocking false]⟩ ∧
      connect_timeout prev .ok ⟨0, 0⟩ iters =
        ⟨.ok, false, [.setNonblocking true, .connect, .setNonblocking false]⟩ :=
  ⟨by simp [connect_timeout], rfl⟩

/-- Counterexample to claim C3: a socket that was in nonblocking mode before
the call is left in blocking mode on exit, so the flag is not restored to its
prior value. -/
theorem nonblocking_not_restored_counterexample :
    (connect_timeout true .ok ⟨1, 0⟩ []).nonblocking ≠ true := by
  decide

/-- Claim C3 as amended: on every exit path (immediate success, connect
error, zero-timeout rejection, timeout, poll error, or poll success), and
assuming the fcntl toggles themselves succeed, `connect_timeout` leaves the
nonblocking flag cleared — blocking mode — which coincides with the prior
value exactly when the socket was blocking before the call. -/
theorem nonblocking_cleared_on_exit (prev : Bool) (cr : ConnectRes) (timeout : Duration)
    (iters : List IterEnv) :
    (connect_timeout prev cr timeout iters).nonblocking = false := by
  cases cr with
  | ok => rfl
  | errOther e => rfl
  | inProgress =>
    by_cases h : timeout.secs = 0 ∧ timeout.nanos = 0 <;> simp [connect_timeout, h]

theorem pollLoop_timedOut_first (timeout : Duration) (iters : List IterEnv)
    (h : (pollLoop timeout iters).1 = ConnResult.timedOut) :
    ∃ pre it post, iters = pre ++ it :: post ∧ Duration.leb timeout it.elapsed = true ∧
      ∀ x ∈ pre, Duration.leb timeout x.elapsed = false ∧ x.poll = PollRes.expired := by
  induction iters with
  | nil => simp [pollLoop] at h
  | cons it rest ih =>
    by_cases hle : Duration.leb timeout it.elapsed = true
    · exact ⟨[], it, rest, rfl, hle, by simp⟩
    · rw [Bool.not_eq_true] at hle
      cases hp : it.poll with
      | err e =>
        simp [pollLoop, hle, hp, decode_error_kind] at h
      | expired =>
        simp only [pollLoop, hle, Bool.false_eq_true, if_false, hp] at h
        obtain ⟨pre, it', post, heq, h1, h2⟩ := ih h
        refine ⟨it :: pre, it', post, by rw [heq]; rfl, h1, ?_⟩
        intro x hx
        rcases List.mem_cons.mp hx with hx | hx
        · subst hx; exact ⟨hle, hp⟩
        · exact h2 x hx
      | ready =>
        simp [pollLoop, hle, hp] at h

theorem pollLoop_ok_before_deadline (timeout : Duration) (iters : List IterEnv)
    (h : (pollLoop timeout iters).1 = ConnResult.ok) :
    ∃ pre it post, iters = pre ++ it :: post ∧ Duration.leb timeout it.elapsed = false ∧
      it.poll = PollRes.ready ∧
      ∀ x ∈ pre, Duration.leb timeout x.elapsed = false ∧ x.poll = PollRes.expired := by
  induction iters with
  | nil => simp [pollLoop] at h
  | cons it rest ih =>
    by_cases hle : Duration.leb timeout it.elapsed = true
    · simp [pollLoop, hle] at h
    · rw [Bool.not_eq_true] at hle
      cases hp : it.poll with
      | err e =>
        simp [pollLoop, hle, hp, decode_error_kind] at h
      | expired =>
        simp only [pollLoop, hle, Bool.false_eq_true, if_false, hp] at h
        obtain ⟨pre, it', post, heq, h1, h2, h3⟩ := ih h
        refine ⟨it :: pre, it', post, by rw [heq]; rfl, h1, h2, ?_⟩
        intro x hx
        rcases List.mem_cons.mp hx with hx | hx
        · subst hx; exact ⟨hle, hp⟩
        · exact h3 x hx
      | ready =>
        exact ⟨[], it, rest, rfl, hle, hp, by simp⟩

/-- Claim C4: for a nonzero timeout on the in-progress path, a timed-out
result is returned exactly at the first clock observation at or after the
deadline (so the deadline is overshot by at most the one poll wait separating
consecutive observations), and a success from the poll loop happens at an
observation strictly before the deadline; every earlier iteration was an
expired wait strictly before the deadline. -/
theorem connect_timeout_deadline (prev : Bool) (timeout : Duration) (iters : List IterEnv)
    (hnz : ¬ (timeout.secs = 0 ∧ timeout.nanos = 0)) :
    ((connect_timeout prev .inProgress timeout iters).result = .timedOut →
      ∃ pre it post, iters = pre ++ it :: post ∧ Duration.leb timeout it.elapsed = true ∧
        ∀ x ∈ pre, Duration.leb timeout x.elapsed = false ∧ x.poll = PollRes.expired) ∧
    ((connect_timeout prev .inProgress timeout iters).result = .ok →
      ∃ pre it post, iters = pre ++ it :: post ∧ Duration.leb timeout it.elapsed = false ∧
        it.poll = PollRes.ready ∧
        ∀ x ∈ pre, Duration.leb timeout x.elapsed = false ∧ x.poll = PollRes.expired) := by
  have hres : (connect_timeout prev .inProgress timeout iters).result =
      (pollLoop timeout iters).1 := by
    simp [connect_timeout, hnz]
  rw [hres]
  exact ⟨pollLoop_timedOut_first timeout iters, pollLoop_ok_before_deadline timeout iters⟩

/-- Witness for C4: a one-second timeout whose second clock observation is at
the deadline, driving the loop to a timed-out result. -/
theorem connect_timeout_deadline_witness :
    ¬ ((1 : Nat) = 0 ∧ (0 : Nat) = 0) ∧
    (((connect_timeout false .inProgress ⟨1, 0⟩
          [⟨⟨0, 500⟩, .expired⟩, ⟨⟨1, 0⟩, .ready⟩]).result = .timedOut →
        ∃ pre it post,
          [(⟨⟨0, 500⟩, .expired⟩ : IterEnv), ⟨⟨1, 0⟩, .ready⟩] = pre ++ it :: post ∧
            Duration.leb ⟨1, 0⟩ it.elapsed = true ∧
            ∀ x ∈ pre, Duration.leb ⟨1, 0⟩ x.elapsed = false ∧ x.poll = PollRes.expired) ∧
      ((connect_timeout false .inProgress ⟨1, 0⟩
          [⟨⟨0, 500⟩, .expired⟩, ⟨⟨1, 0⟩, .ready⟩]).result = .ok →
        ∃ pre it post,
          [(⟨⟨0, 500⟩, .expired⟩ : IterEnv), ⟨⟨1, 0⟩, .ready⟩] = pre ++ it :: post ∧
            Duration.leb ⟨1, 0⟩ it.elapsed = false ∧ it.poll = PollRes.ready ∧
            ∀ x ∈ pre, Duration.leb ⟨1, 0⟩ x.elapsed = false ∧ x.poll = PollRes.expired)) :=
  ⟨by decide, connect_timeout_deadline false ⟨1, 0⟩
    [⟨⟨0, 500⟩, .expired⟩, ⟨⟨1, 0⟩, .ready⟩] (by decide)⟩

theorem pollMs_bounds (rem : Duration) : 1 ≤ pollMs rem ∧ pollMs rem ≤ C_INT_MAX := by
  simp only [pollMs]
  refine ⟨Nat.le_min.mpr ⟨?_, by norm_num [C_INT_MAX]⟩, Nat.min_le_right _ _⟩
  split
  · exact Nat.le_refl 1
  · omega

theorem pollLoop_poll_calls_bounded (timeout : Duration) (iters : List IterEnv) (ms : Nat)
    (h : OsCall.poll ms ∈ (pollLoop timeout iters).2) : 1 ≤ ms ∧ ms ≤ C_INT_MAX := by
  induction iters with
  | nil => simp [pollLoop] at h
  | cons it rest ih =>
    by_cases hle : Duration.leb timeout it.elapsed = true
    · simp [pollLoop, hle] at h
    · rw [Bool.not_eq_true] at hle
      cases hp : it.poll with
      | err e =>
        simp only [pollLoop, hle, Bool.false_eq_true, if_false, hp, decode_error_kind,
          reduceCtorEq, if_false, List.mem_singleton] at h
        obtain rfl : ms = pollMs (timeout.subUnwrap it.elapsed) := by
          injection h
        exact pollMs_bounds _
      | expired =>
        simp only [pollLoop, hle, Bool.false_eq_true, if_false, hp, List.mem_cons] at h
        rcases h with h | h
        · obtain rfl : ms = pollMs (timeout.subUnwrap it.elapsed) := by injection h
          exact pollMs_bounds _
        · exact ih h
      | ready =>
        simp only [pollLoop, hle, Bool.false_eq_true, if_false, hp, List.mem_singleton] at h
        obtain rfl : ms = pollMs (timeout.subUnwrap it.elapsed) := by injection h
        exact pollMs_bounds _

/-- Claim C9: every poll call issued by `connect_timeout` carries a
millisecond wait value of at least 1 and at most `c_int::MAX`, the conversion
from the remaining duration being saturating. -/
theorem connect_timeout_poll_wait_bounds (prev : Bool) (cr : ConnectRes) (timeout : Duration)
    (iters : List IterEnv) (ms : Nat)
    (h : OsCall.poll ms ∈ (connect_timeout prev cr timeout iters).calls) :
    1 ≤ ms ∧ ms ≤ C_INT_MAX := by
  cases cr with
  | ok => simp [connect_timeout] at h
  | errOther e => simp [connect_timeout] at h
  | inProgress =>
    by_cases hz : timeout.secs = 0 ∧ timeout.nanos = 0
    · simp [connect_timeout, hz] at h
    · simp only [connect_timeout, hz, if_false, List.mem_append] at h
      rcases h with h | h
      · simp at h
      · exact pollLoop_poll_calls_bounded timeout iters ms h

/-- Witness for C9: a concrete run issuing one poll call with a 1000 ms wait. -/
theorem connect_timeout_poll_wait_bounds_witness :
    OsCall.poll 1000 ∈ (connect_timeout false .inProgress ⟨1, 0⟩
        [⟨⟨0, 0⟩, .ready⟩]).calls ∧
      1 ≤ 1000 ∧ 1000 ≤ C_INT_MAX :=
  ⟨by decide, connect_timeout_poll_wait_bounds false .inProgress ⟨1, 0⟩
    [⟨⟨0, 0⟩, .ready⟩] 1000 (by decide)⟩

/-! Resolver-error classifier: `cvt_gai` of
`sys/net/connection/socket/switch.rs`. The `on_resolver_failure` shim called
before classification is a no-op for the returned outcome (and the non-gnu
variant is literally empty), so it does not appear in the model. -/

/-- Classified outcome of `cvt_gai`: success, escalation to the last raw OS
error (`EAI_SYSTEM`), the distinguished network-down outcome, the generic
unknown-network error, or the generic lookup failure carrying the resolver's
own description of the code. -/
inductive GaiOutcome where
  | ok
  | lastOsError
  | networkDown
  | unknownNetwork
  | lookupFailure (err : Int)
deriving DecidableEq, Repr

/-- `cvt_gai`, parameterised by the platform's `EAI_SYSTEM` value and the
result of the live `IsNetworkAvailable` probe: `0` is success; `EAI_SYSTEM`
escalates to the last OS error; `7` (`EAI_NODATA`) branches on the probe;
every other code is a generic lookup failure. -/
def cvt_gai (eai_system : Int) (networkAvailable : Bool) (err : Int) : GaiOutcome :=
  if err = 0 then .ok
  else if err = eai_system then .lastOsError
  else if err = 7 then
    if !networkAvailable then .networkDown else .unknownNetwork
  else .lookupFailure err

/-- Claim C5: resolver code 0 is success; the system-failure code yields the
last raw OS error; code 7 yields network-down when the availability probe
reports false and the generic unknown-network error when it reports true;
every other nonzero code yields the generic lookup failure carrying the
resolver's description. Stated for any platform value of `EAI_SYSTEM` distinct
from the specially handled codes 0 and 7, as every real libc satisfies. -/
theorem cvt_gai_classification (eai_system : Int) (avail : Bool) (err : Int)
    (hs0 : eai_system ≠ 0) (hs7 : eai_system ≠ 7) :
    cvt_gai eai_system avail 0 = .ok ∧
      cvt_gai eai_system avail eai_system = .lastOsError ∧
      cvt_gai eai_system false 7 = .networkDown ∧
      cvt_gai eai_system true 7 = .unknownNetwork ∧
      (err ≠ 0 → err ≠ eai_system → err ≠ 7 → cvt_gai eai_system avail err = .lookupFailure err) := by
  have h7 : (7 : Int) ≠ eai_system := fun h => hs7 h.symm
  refine ⟨rfl, ?_, ?_, ?_, ?_⟩
  · simp [cvt_gai, hs0]
  · simp [cvt_gai, h7]
  · simp [cvt_gai, h7]
  · intro h0 hs hn7
    simp [cvt_gai, h0, hs, hn7]

/-- Witness for C5 at the glibc value `EAI_SYSTEM = -11` and the generic
code 42. -/
theorem cvt_gai_classification_witness :
    cvt_gai (-11) true 0 = .ok ∧
      cvt_gai (-11) true (-11) = .lastOsError ∧
      cvt_gai (-11) false 7 = .networkDown ∧
      cvt_gai (-11) true 7 = .unknownNetwork ∧
      ((42 : Int) ≠ 0 → (42 : Int) ≠ -11 → (42 : Int) ≠ 7 →
        cvt_gai (-11) true 42 = .lookupFailure 42) :=
  cvt_gai_classification (-11) true 42 (by decide) (by decide)

/-! Socket timeout option: `Socket::set_timeout` of
`sys/net/connection/socket/switch.rs`. -/

/-- `time_t::MAX` on this 64-bit platform. -/
def TIME_T_MAX : Int := 9223372036854775807

/-- The OS `timeval` stored by `setsockopt`. -/
structure Timeval where
  tv_sec : Int
  tv_usec : Int
deriving DecidableEq, Repr

/-- Result of `set_timeout`: the invalid-input rejection, or the `timeval`
handed to `setsockopt`. -/
inductive SetTimeoutRes where
  | invalidInput
  | ok (tv : Timeval)
deriving DecidableEq, Repr

/-- `Socket::set_timeout`: `None` stores the all-zero "no timeout" value; a
zero duration is rejected as invalid input before the `setsockopt` call;
otherwise seconds are clamped to `time_t::MAX`, microseconds are the
duration's subsecond microseconds, and an all-zero computed `timeval` is
nudged to one microsecond. -/
def set_timeout (dur : Option Duration) : SetTimeoutRes :=
  match dur with
  | some dur =>
    if dur.secs = 0 ∧ dur.nanos = 0 then .invalidInput
    else
      let secs : Int := if (dur.secs : Int) > TIME_T_MAX then TIME_T_MAX else (dur.secs : Int)
      let usec : Int := (dur.nanos / 1000 : Nat)
      if secs = 0 ∧ usec = 0 then .ok ⟨secs, 1⟩ else .ok ⟨secs, usec⟩
  | none => .ok ⟨0, 0⟩

/-- Claim C8: `set_timeout` rejects an explicit zero duration with an
invalid-input error before the `setsockopt` OS call; for every nonzero
duration the stored `timeval` is never the all-zero "no timeout" value; and a
nonzero duration whose computed representation would be all-zero (seconds
zero, under a thousand nanoseconds) is stored as the smallest representable
nonzero value, one microsecond. -/
theorem set_timeout_spec (d : Duration) (_hd : d.WF) :
    (d.secs = 0 ∧ d.nanos = 0 → set_timeout (some d) = .invalidInput) ∧
      (¬ (d.secs = 0 ∧ d.nanos = 0) →
        ∃ tv, set_timeout (some d) = .ok tv ∧ ¬ (tv.tv_sec = 0 ∧ tv.tv_usec = 0)) ∧
      (d.secs = 0 → 0 < d.nanos → d.nanos < 1000 → set_timeout (some d) = .ok ⟨0, 1⟩) := by
  refine ⟨?_, ?_, ?_⟩
  · intro h
    simp [set_timeout, h]
  · intro h
    simp only [set_timeout, h, if_false]
    by_cases hz : (if (d.secs : Int) > TIME_T_MAX then TIME_T_MAX else (d.secs : Int)) = 0 ∧
        ((d.nanos / 1000 : Nat) : Int) = 0
    · exact ⟨⟨if (d.secs : Int) > TIME_T_MAX then TIME_T_MAX else (d.secs : Int), 1⟩,
        by simp [hz.1, hz.2], by simp [hz.1]⟩
    · exact ⟨⟨if (d.secs : Int) > TIME_T_MAX then TIME_T_MAX else (d.secs : Int),
        ((d.nanos / 1000 : Nat) : Int)⟩, by simp only [hz, if_false], hz⟩
  · intro hs hn1 hn2
    have hnz : ¬ (d.secs = 0 ∧ d.nanos = 0) := by omega
    have hn0 : ¬ d.nanos = 0 := by omega
    have hdiv : d.nanos / 1000 = 0 := Nat.div_eq_of_lt hn2
    simp [set_timeout, hnz, hs, hn0, hdiv, TIME_T_MAX]

/-- Witness for C8 at the concrete duration of 500 nanoseconds. -/
theorem set_timeout_spec_witness :
    Duration.WF ⟨0, 500⟩ ∧ set_timeout (some ⟨0, 500⟩) = .ok ⟨0, 1⟩ :=
  ⟨⟨by decide, by decide⟩,
    (set_timeout_spec ⟨0, 500⟩ ⟨by decide, by decide⟩).2.2 rfl (by decide) (by decide)⟩

end PAL
